import Mathlib

/-!
Verification development for the CertificateApp repository
(src/CertificateApp.js): a shallow embedding of the `User`,
`Certificate` and `BatchProcessor` classes, together with theorems about
roster loading, certificate generation, persistence and notification.

External collaborators (Drive, Slides, Sheets, Mail) are modelled as
explicit values threaded through the operations: a sheet is a header row
plus data rows, a spreadsheet grid is a function from 1-based
coordinates to cell text, and the Slides text-replacement service is a
pure function on character lists.  JavaScript `undefined` is modelled as
`Option.none`, and machine behaviours (array `indexOf` returning -1,
sparse array assignment, `||` defaulting, truthiness) are embedded
explicitly.
-/

namespace CertificateApp

/-- JavaScript `Array.prototype.indexOf`: index of the first occurrence
of `x` in `l`, or `-1` when `x` does not occur. -/
def jsIndexOf (l : List String) (x : String) : Int :=
  match l with
  | [] => -1
  | h :: t =>
    if h = x then 0
    else if jsIndexOf t x = -1 then -1 else jsIndexOf t x + 1

/-- JavaScript array read `row[i]`: `some` cell when `0 ≤ i < length`,
`none` (undefined) otherwise, in particular for `i = -1`. -/
def cellAt (row : List String) (i : Int) : Option String :=
  if h : 0 ≤ i ∧ i.toNat < row.length then some (row.get ⟨i.toNat, h.2⟩) else none

/-- JavaScript truthiness of a possibly-undefined string value:
`undefined` and the empty string are falsy. -/
def jsTruthy (v : Option String) : Bool :=
  match v with
  | none => false
  | some s => decide (s ≠ "")

/-- JavaScript `v || d` on a possibly-undefined string value: yields `d`
when `v` is undefined or empty, `v`'s value otherwise. -/
def jsOr (v : Option String) (d : String) : String :=
  match v with
  | none => d
  | some s => if s = "" then d else s

/-- JavaScript template-literal coercion of a possibly-undefined string
value, as in `` `Certificate: ${user.getName()}` ``. -/
def jsTemplateStr (v : Option String) : String :=
  match v with
  | none => "undefined"
  | some s => s

/-- JavaScript `String.prototype.trim`: strip leading and trailing
whitespace.  Defined structurally on the character list so that it
evaluates on concrete inputs. -/
def jsTrim (s : String) : String :=
  ⟨((s.data.dropWhile Char.isWhitespace).reverse.dropWhile Char.isWhitespace).reverse⟩

/-- JavaScript sparse array write `l[i] = v`.  A negative index becomes
an object property and leaves the array untouched; an index beyond the
current length extends the array with holes (`none`). -/
def jsArraySet (l : List (Option String)) (i : Int) (v : Option String) :
    List (Option String) :=
  if 0 ≤ i then
    if i.toNat < l.length then l.set i.toNat v
    else l ++ List.replicate (i.toNat - l.length) none ++ [v]
  else l

/-- Folded comparison of the head of `s` against the whole of `pat`:
true when the first `pat.length` characters of `s` exist and agree with
`pat` after applying `f` to both sides.  With `f = Char.toLower` this is
a case-insensitive anchored match. -/
def leadsBy (f : Char → Char) (pat s : List Char) : Bool :=
  decide ((s.take pat.length).map f = pat.map f)

/-- Folded substring test: true when some suffix of `s` starts with a
folded match of `pat`. -/
def occursBy (f : Char → Char) (pat : List Char) : List Char → Bool
  | [] => leadsBy f pat []
  | c :: t => leadsBy f pat (c :: t) || occursBy f pat t

/-- Fuelled left-to-right replacement scan: replaces every folded match
of `p :: pt` with `rep`, consuming each match without rescanning it.
The fuel bounds the subject length so the recursion is structural and
the function evaluates on concrete inputs. -/
def replaceByF (f : Char → Char) (p : Char) (pt rep : List Char) :
    Nat → List Char → List Char
  | 0, _ => []
  | fuel + 1, s =>
    match s with
    | [] => []
    | c :: t =>
      if leadsBy f (p :: pt) (c :: t) then
        rep ++ replaceByF f p pt rep fuel (t.drop pt.length)
      else
        c :: replaceByF f p pt rep fuel t

/-- Left-to-right scan replacing every folded match of `p :: pt` in the
subject with `rep`; a match consumes the matched characters and is not
rescanned. -/
def replaceBy (f : Char → Char) (p : Char) (pt rep : List Char)
    (s : List Char) : List Char :=
  replaceByF f p pt rep s.length s

/-- Modelled from the spec: the Slides `batchUpdate` `replaceAllText`
collaborator with `matchCase: false` (src issues the request; the
replacement itself is performed by the external Slides service, which
the spec describes as replacing every case-insensitive match of the
search text with the replacement text).  An empty search text matches
nothing; an undefined replacement is treated as the empty string, a case
the application never produces for recipients loaded from a sheet. -/
def replaceAllCI (pat rep s : List Char) : List Char :=
  match pat with
  | [] => s
  | p :: pt => replaceBy Char.toLower p pt rep s

/-- Process-wide configuration installed by `CertificateApp.init`. -/
structure AppConfig where
  basePresentationID : String
  destinationFolderID : String
  placeholder : String
deriving DecidableEq

/-- Private state of a `User` instance.  Fields hold possibly-undefined
string values (`fromJSON` can store `undefined` in `_name`/`_email`). -/
structure User where
  _name : Option String
  _email : Option String
  _certificateID : Option String
deriving DecidableEq

/-- A fresh `new User()`: all three fields start as empty strings. -/
def newUser : User := ⟨some "", some "", some ""⟩

def User.setName (u : User) (name : String) : User := { u with _name := some name }

def User.getName (u : User) : Option String := u._name

def User.setEmail (u : User) (email : String) : User := { u with _email := some email }

def User.getEmail (u : User) : Option String := u._email

def User.setCertificateID (u : User) (certificateID : String) : User :=
  { u with _certificateID := some certificateID }

def User.getCertificateID (u : User) : Option String := u._certificateID

/-- The plain mapping produced by `User.toJSON` / consumed by
`User.fromJSON`; absent keys are `none`. -/
structure JSONRecord where
  name : Option String
  email : Option String
  certificateID : Option String
deriving DecidableEq

def User.toJSON (u : User) : JSONRecord :=
  { name := u._name, email := u._email, certificateID := u._certificateID }

/-- `fromJSON` assigns `_name`/`_email` the raw (possibly undefined)
record values, while `_certificateID` is defaulted with `|| ''`. -/
def User.fromJSON (u : User) (j : JSONRecord) : User :=
  { u with
    _name := j.name
    _email := j.email
    _certificateID := some (j.certificateID.getD "") }

/-- Optional `params` object accepted by `sendEmail`. -/
structure EmailParams where
  subject : Option String
  htmlBody : Option String
  senderName : Option String
deriving DecidableEq

/-- One message handed to the `MailApp.sendEmail` collaborator. -/
structure EmailMsg where
  senderName : String
  /-- The `to:` field of the message. -/
  toAddr : Option String
  subject : String
  htmlBody : String
  attachments : List String
deriving DecidableEq

def defaultEmailSubject : String := "Certificado de Participação no Treinamento"

def defaultEmailHtmlBody (name : String) : String :=
  "<div dir=\"ltr\">Oi " ++ name ++
    "!<br><br>Agradecemos muito a sua participação no nosso treinamento.<br><br>Esperamos que tenha gostado dele!<br><br>Aqui está o seu certificado de participação.</div>\r\n"

/-- `User.sendEmail`: skip silently when `_certificateID` is falsy,
otherwise emit exactly one message with the certificate file as sole
attachment, caller-supplied fields defaulted with `||`. -/
def User.sendEmail (u : User) (params : Option EmailParams) : Option EmailMsg :=
  match u._certificateID with
  | none => none
  | some cid =>
    if cid = "" then none
    else
      some
        { senderName := jsOr (params.bind fun p => p.senderName) ""
          toAddr := u._email
          subject := jsOr (params.bind fun p => p.subject) defaultEmailSubject
          htmlBody := jsOr (params.bind fun p => p.htmlBody)
            (defaultEmailHtmlBody (jsTemplateStr u._name))
          attachments := [cid] }

/-- Private state of a `Certificate` instance.  The placeholder
replacement holds the raw value passed to the setter (the batch
processor passes `user.getName()`, which can be undefined). -/
structure Certificate where
  _placeholderReplacement : Option String
  _certificateName : String
  _deletePresentation : Bool
  _certificateID : String
deriving DecidableEq

/-- A fresh `new Certificate()`. -/
def newCertificate : Certificate :=
  { _placeholderReplacement := some ""
    _certificateName := ""
    _deletePresentation := false
    _certificateID := "" }

def Certificate.setPlaceholderReplacement (c : Certificate)
    (placeholderReplacement : Option String) : Certificate :=
  { c with _placeholderReplacement := placeholderReplacement }

def Certificate.setCertificateName (c : Certificate) (certificateName : String) :
    Certificate :=
  { c with _certificateName := certificateName }

def Certificate.deletePresentation (c : Certificate) (del : Bool) : Certificate :=
  { c with _deletePresentation := del }

def Certificate.getCertificateID (c : Certificate) : String := c._certificateID

/-- External context of one `createCertificate` run: the text content of
the base presentation template and the Drive file ids minted for the
copied presentation and for the exported PDF. -/
structure CertEnv where
  templateText : List Char
  cloneFileID : String
  pdfFileID : String
deriving DecidableEq

/-- One `replaceAllText` request as built by `createCertificate`. -/
structure ReplaceAllTextRequest where
  replaceText : Option String
  containsTextText : String
  matchCase : Bool
deriving DecidableEq

/-- Observable effects of one `createCertificate` run. -/
structure CertRun where
  cloneFileID : String
  cloneName : String
  /-- Each `Slides.Presentations.batchUpdate` call: its request list and
  the id of the presentation it targets. -/
  batchUpdates : List (List ReplaceAllTextRequest × String)
  /-- Text of the presentation copy after the batch update. -/
  cloneText : List Char
  /-- Text content of the exported and stored PDF artifact. -/
  pdfText : List Char
  pdfFileID : String
  cloneTrashed : Bool
deriving DecidableEq

/-- `Certificate.createCertificate`: copy the template into the
destination folder under the configured name, issue a single
`replaceAllText` batch update (match-case disabled) against the copy,
export the copy as PDF, store it, record its id, and set the copy's
trashed flag from `_deletePresentation`. -/
def Certificate.createCertificate (c : Certificate) (cfg : AppConfig)
    (env : CertEnv) : Certificate × CertRun :=
  let request : ReplaceAllTextRequest :=
    { replaceText := c._placeholderReplacement
      containsTextText := cfg.placeholder
      matchCase := false }
  let newText :=
    replaceAllCI cfg.placeholder.data (c._placeholderReplacement.getD "").data
      env.templateText
  ({ c with _certificateID := env.pdfFileID },
   { cloneFileID := env.cloneFileID
     cloneName := c._certificateName
     batchUpdates := [([request], env.cloneFileID)]
     cloneText := newText
     pdfText := newText
     pdfFileID := env.pdfFileID
     cloneTrashed := c._deletePresentation })

/-- The value grid of a sheet as read by `getDataRange().getValues()`:
the header row followed by the data rows. -/
structure SheetData where
  headers : List String
  data : List (List String)
deriving DecidableEq

/-- A live spreadsheet cell grid, 1-based (row, column) to cell text. -/
def Grid : Type := Nat → Nat → String

/-- `Range.setValues` on a grid: the block of `vals.length` rows and
`(vals.headD []).length` columns anchored at `(r0, c0)` is overwritten
(holes and undefined entries become empty cells); all other cells keep
their old value. -/
def writeRange (g : Grid) (r0 c0 : Nat) (vals : List (List (Option String))) :
    Grid :=
  fun r c =>
    if r0 ≤ r ∧ r < r0 + vals.length ∧ c0 ≤ c ∧ c < c0 + (vals.headD []).length then
      (((vals.getD (r - r0) []).getD (c - c0) none).getD "")
    else g r c

/-- Private state of a `BatchProcessor` instance. -/
structure BatchProcessor where
  _users : List User
  _spreadsheetID : String
  _sheetName : String
  _namesColumnHeader : String
  _emailsColumnHeader : String
  _certificatesIDColumnHeader : String
  _deletePresentations : Bool
deriving DecidableEq

/-- A fresh `new BatchProcessor()`. -/
def newBatchProcessor : BatchProcessor := ⟨[], "", "", "", "", "", false⟩

def BatchProcessor.setSpreadsheetID (bp : BatchProcessor) (spreadsheetID : String) :
    BatchProcessor :=
  { bp with _spreadsheetID := spreadsheetID }

def BatchProcessor.setSheetName (bp : BatchProcessor) (sheetName : String) :
    BatchProcessor :=
  { bp with _sheetName := sheetName }

def BatchProcessor.setNamesColumnHeader (bp : BatchProcessor) (h : String) :
    BatchProcessor :=
  { bp with _namesColumnHeader := h }

def BatchProcessor.setEmailsColumnHeader (bp : BatchProcessor) (h : String) :
    BatchProcessor :=
  { bp with _emailsColumnHeader := h }

def BatchProcessor.setCertificatesIDColumnHeader (bp : BatchProcessor) (h : String) :
    BatchProcessor :=
  { bp with _certificatesIDColumnHeader := h }

def BatchProcessor.deletePresentations (bp : BatchProcessor) (del : Bool) :
    BatchProcessor :=
  { bp with _deletePresentations := del }

/-- One iteration of the `getUsersFromSheet` row loop: skip the row when
the name or email cell is falsy, otherwise build a `User` from the
trimmed cell values.  Reading the certificate cell at an unresolved
column yields `undefined`, whose `.toString()` throws. -/
def loadRow (nc ec cc : Int) (row : List String) : Except String (Option User) :=
  if !jsTruthy (cellAt row nc) || !jsTruthy (cellAt row ec) then
    .ok none
  else
    match cellAt row cc with
    | none => .error "TypeError: Cannot read properties of undefined (reading toString)"
    | some cid =>
      .ok (some (((newUser.setName (jsTrim ((cellAt row nc).getD ""))).setEmail
        (jsTrim ((cellAt row ec).getD ""))).setCertificateID (jsTrim cid)))

/-- The `data.forEach` loop of `getUsersFromSheet`: rows are processed
in order, users pushed onto the accumulator, and a thrown `TypeError`
stops the loop with the users pushed so far retained. -/
def loadRows (nc ec cc : Int) : List (List String) → List User →
    List User × Option String
  | [], acc => (acc, none)
  | row :: rest, acc =>
    match loadRow nc ec cc row with
    | .error e => (acc, some e)
    | .ok none => loadRows nc ec cc rest acc
    | .ok (some u) => loadRows nc ec cc rest (acc ++ [u])

/-- `BatchProcessor.getUsersFromSheet` on the given sheet values:
resolves the three configured headers against the header row, then runs
the row loop, appending to `_users`.  The second component is the
uncaught exception, if any. -/
def BatchProcessor.getUsersFromSheet (bp : BatchProcessor) (sheet : SheetData) :
    BatchProcessor × Option String :=
  let namesColumn := jsIndexOf sheet.headers bp._namesColumnHeader
  let emailsColumn := jsIndexOf sheet.headers bp._emailsColumnHeader
  let certificatesIDColumn := jsIndexOf sheet.headers bp._certificatesIDColumnHeader
  let r := loadRows namesColumn emailsColumn certificatesIDColumn sheet.data bp._users
  ({ bp with _users := r.1 }, r.2)

/-- One output row of `saveUsersToSheet`: a fresh array with the three
fields written at the resolved column indices by sparse assignment. -/
def buildRow (nc ec cc : Int) (u : User) : List (Option String) :=
  jsArraySet (jsArraySet (jsArraySet [] nc u._name) ec u._email) cc u._certificateID

/-- `BatchProcessor.saveUsersToSheet`: re-resolve the three headers
against the live header row, build one output row per user, and bulk
write them starting at row 2, column 1, with width taken from the first
row.  With zero users, evaluating `rows[0].length` throws before any
write happens. -/
def BatchProcessor.saveUsersToSheet (bp : BatchProcessor) (sheet : SheetData)
    (grid : Grid) : Except String Grid :=
  let namesColumn := jsIndexOf sheet.headers bp._namesColumnHeader
  let emailsColumn := jsIndexOf sheet.headers bp._emailsColumnHeader
  let certificatesIDColumn := jsIndexOf sheet.headers bp._certificatesIDColumnHeader
  let rows := bp._users.map (buildRow namesColumn emailsColumn certificatesIDColumn)
  match rows with
  | [] => .error "TypeError: Cannot read properties of undefined (reading length)"
  | r0 :: rest => .ok (writeRange grid 2 1 (r0 :: rest))

/-- The `Certificate` a batch iteration configures for one user. -/
def certFor (del : Bool) (u : User) : Certificate :=
  ((newCertificate.setCertificateName
      ("Certificate: " ++ jsTemplateStr u.getName)).setPlaceholderReplacement
    u.getName).deletePresentation del

/-- The `_users.forEach` loop of `createAllCertificates`: users are
processed strictly in list order, the generator for position `i` runs in
environment `envs i`, and the resulting certificate id is assigned back
onto the user. -/
def certLoop (cfg : AppConfig) (envs : Nat → CertEnv) (del : Bool) :
    List User → Nat → List User × List CertRun
  | [], _ => ([], [])
  | u :: rest, i =>
    let r := (certFor del u).createCertificate cfg (envs i)
    let tail := certLoop cfg envs del rest (i + 1)
    (u.setCertificateID r.1.getCertificateID :: tail.1, r.2 :: tail.2)

/-- `BatchProcessor.createAllCertificates`, returning the updated
processor and the per-user generation runs in order. -/
def BatchProcessor.createAllCertificates (bp : BatchProcessor) (cfg : AppConfig)
    (envs : Nat → CertEnv) : BatchProcessor × List CertRun :=
  let r := certLoop cfg envs bp._deletePresentations bp._users 0
  ({ bp with _users := r.1 }, r.2)

/-- `BatchProcessor.sendEmails`: invoke `sendEmail` on every user in
order with the same params; the messages actually sent, in order. -/
def BatchProcessor.sendEmails (bp : BatchProcessor) (params : Option EmailParams) :
    List EmailMsg :=
  bp._users.filterMap fun u => u.sendEmail params

/-- The per-row reading contract stated by the specification: a row with
truthy name and email cells yields exactly one recipient built from the
trimmed values of the three resolved columns, any other row yields
none.  The load theorems relate the implementation loop to this
function. -/
def rowRecipient (nc ec cc : Int) (row : List String) : Option User :=
  if jsTruthy (cellAt row nc) && jsTruthy (cellAt row ec) then
    some
      { _name := some (jsTrim ((cellAt row nc).getD ""))
        _email := some (jsTrim ((cellAt row ec).getD ""))
        _certificateID := some (jsTrim ((cellAt row cc).getD "")) }
  else none

/-- A grid whose every cell is the same text, used as a concrete initial
sheet state in closed instances. -/
def constGrid (s : String) : Grid := fun _ _ => s

/-- A concrete environment supply for closed instances of the
certificate batch. -/
def demoEnvs : Nat → CertEnv :=
  fun i => ⟨("Oi \x7b\x7bName\x7d\x7d!").data, "clone-" ++ toString i, "pdf-" ++ toString i⟩

/-- A concrete process configuration for closed instances. -/
def demoCfg : AppConfig := ⟨"base-id", "folder-id", "\x7b\x7bname\x7d\x7d"⟩

/-- A concrete recipient for closed instances. -/
def demoUser : User := ⟨some "Ana", some "ana@example.com", some ""⟩

/-- A concrete batch processor for closed instances. -/
def demoBatch : BatchProcessor :=
  { _users := [demoUser]
    _spreadsheetID := "sheet-id"
    _sheetName := "Turma"
    _namesColumnHeader := "Name"
    _emailsColumnHeader := "Email"
    _certificatesIDColumnHeader := "Certificate ID"
    _deletePresentations := true }

/-- A concrete sheet for closed instances: two valid rows (the second
with an empty certificate cell) and one row with an empty name cell. -/
def demoSheet : SheetData :=
  ⟨["Name", "Email", "Certificate ID"],
   [[" Ana ", "ana@example.com", "cert-1"],
    ["", "x@example.com", "c"],
    ["Bob", " bob@example.com ", ""]]⟩

/-- The options object shape used by the repository's own usage example
for `sendEmails`: all three fields provided but empty. -/
def demoEmailParams : EmailParams := ⟨some "", some "", some ""⟩

/-! Basic lemmas about the JavaScript array helpers. -/

lemma jsIndexOf_of_mem {l : List String} {x : String} (h : x ∈ l) :
    0 ≤ jsIndexOf l x ∧ (jsIndexOf l x).toNat < l.length := by
  induction l with
  | nil => cases h
  | cons a t ih =>
    by_cases hax : a = x
    · simp [jsIndexOf, hax]
    · have hxt : x ∈ t := by
        rcases List.mem_cons.mp h with h1 | h1
        · exact absurd h1.symm hax
        · exact h1
      rcases ih hxt with ⟨h0, h1⟩
      have hne : jsIndexOf t x ≠ -1 := by omega
      simp only [jsIndexOf, if_neg hax, if_neg hne, List.length_cons]
      omega

lemma jsIndexOf_of_not_mem {l : List String} {x : String} (h : x ∉ l) :
    jsIndexOf l x = -1 := by
  induction l with
  | nil => rfl
  | cons a t ih =>
    have hax : a ≠ x := fun he => h (he ▸ List.mem_cons_self a t)
    have ht : x ∉ t := fun hm => h (List.mem_cons_of_mem a hm)
    simp [jsIndexOf, hax, ih ht]

lemma cellAt_isSome {row : List String} {i : Int} (h0 : 0 ≤ i)
    (h1 : i.toNat < row.length) : ∃ s, cellAt row i = some s :=
  ⟨_, by rw [cellAt, dif_pos ⟨h0, h1⟩]⟩

lemma cellAt_of_neg {row : List String} {i : Int} (h : i < 0) :
    cellAt row i = none := by
  rw [cellAt, dif_neg]
  intro hc
  omega

/-! Lemmas about the row-loading loop. -/

lemma loadRow_eq_rowRecipient {nc ec cc : Int} {row : List String}
    (h0 : 0 ≤ cc) (h1 : cc.toNat < row.length) :
    loadRow nc ec cc row = .ok (rowRecipient nc ec cc row) := by
  rcases cellAt_isSome h0 h1 with ⟨cid, hcid⟩
  by_cases hv : jsTruthy (cellAt row nc) && jsTruthy (cellAt row ec)
  · have hboth : jsTruthy (cellAt row nc) = true ∧ jsTruthy (cellAt row ec) = true := by
      simpa using hv
    have hn := hboth.1
    have he := hboth.2
    rw [loadRow, if_neg (by simp [hn, he]), hcid, rowRecipient, if_pos hv]
    have : (cellAt row cc).getD "" = cid := by rw [hcid]; rfl
    rw [← this]
    rfl
  · have hv' : (!jsTruthy (cellAt row nc) || !jsTruthy (cellAt row ec)) = true := by
      rcases Bool.and_eq_false_iff.mp (Bool.eq_false_iff.mpr hv) with h | h <;>
        simp [h]

    rw [loadRow, if_pos hv', rowRecipient, if_neg hv]

lemma loadRows_acc (nc ec cc : Int) (data : List (List String)) :
    ∀ acc, loadRows nc ec cc data acc =
      (acc ++ (loadRows nc ec cc data []).1, (loadRows nc ec cc data []).2) := by
  induction data with
  | nil => intro acc; simp [loadRows]
  | cons row rest ih =>
    intro acc
    cases hrow : loadRow nc ec cc row with
    | error e => simp [loadRows, hrow]
    | ok ou =>
      cases ou with
      | none => simp only [loadRows, hrow]; exact ih acc
      | some u =>
        simp only [loadRows, hrow]
        rw [ih (acc ++ [u]), ih ([] ++ [u])]
        simp

lemma loadRows_filterMap {nc ec cc : Int} (h0 : 0 ≤ cc) :
    ∀ (data : List (List String)), (∀ row ∈ data, cc.toNat < row.length) →
      ∀ acc, loadRows nc ec cc data acc =
        (acc ++ data.filterMap (rowRecipient nc ec cc), none) := by
  intro data
  induction data with
  | nil => intro _ acc; simp [loadRows]
  | cons row rest ih =>
    intro hlen acc
    have hrow : loadRow nc ec cc row = .ok (rowRecipient nc ec cc row) :=
      loadRow_eq_rowRecipient h0 (hlen row (List.mem_cons_self row rest))
    have hrest : ∀ r ∈ rest, cc.toNat < r.length := fun r hr =>
      hlen r (List.mem_cons_of_mem row hr)
    cases hrr : rowRecipient nc ec cc row with
    | none =>
      rw [hrr] at hrow
      simp only [loadRows, hrow, List.filterMap_cons, hrr]
      exact ih hrest acc
    | some u =>
      rw [hrr] at hrow
      simp only [loadRows, hrow, List.filterMap_cons, hrr]
      rw [ih hrest (acc ++ [u])]
      simp

lemma loadRows_error_of_neg {nc ec cc : Int} (hcc : cc < 0) :
    ∀ (data : List (List String)),
      (∃ row ∈ data, jsTruthy (cellAt row nc) = true ∧
        jsTruthy (cellAt row ec) = true) →
      ∀ acc, ((loadRows nc ec cc data acc).2).isSome = true := by
  intro data
  induction data with
  | nil => rintro ⟨row, hmem, -⟩; cases hmem
  | cons r rest ih =>
    rintro ⟨row, hmem, hn, he⟩ acc
    by_cases hr : (!jsTruthy (cellAt r nc) || !jsTruthy (cellAt r ec)) = true
    · have hrrow : loadRow nc ec cc r = .ok none := by rw [loadRow, if_pos hr]
      have hrow_ne : row ≠ r := by
        intro hEq
        subst hEq
        simp [hn, he] at hr
      have hmem' : row ∈ rest := by
        rcases List.mem_cons.mp hmem with h1 | h1
        · exact absurd h1 hrow_ne
        · exact h1
      simp only [loadRows, hrrow]
      exact ih ⟨row, hmem', hn, he⟩ acc
    · have hrrow : loadRow nc ec cc r =
          .error "TypeError: Cannot read properties of undefined (reading toString)" := by
        rw [loadRow, if_neg hr, cellAt_of_neg hcc]
      simp [loadRows, hrrow]

/-! Lemmas about the folded matching and replacement machinery. -/

lemma leadsBy_nil_false {f : Char → Char} {p : Char} {pt : List Char} :
    leadsBy f (p :: pt) [] = false := by
  simp [leadsBy]

lemma leadsBy_nil_pat {f : Char → Char} {s : List Char} :
    leadsBy f [] s = true := by
  simp [leadsBy]

lemma leadsBy_cons {f : Char → Char} {p c : Char} {pt t : List Char} :
    leadsBy f (p :: pt) (c :: t) = (decide (f c = f p) && leadsBy f pt t) := by
  simp [leadsBy, List.take_succ_cons, List.cons.injEq, Bool.decide_and]

lemma leadsBy_append_left {f : Char → Char} {pat A B : List Char}
    (h : pat.length ≤ A.length) :
    leadsBy f pat (A ++ B) = leadsBy f pat A := by
  rw [leadsBy, leadsBy, List.take_append_of_le_length h]

lemma occursBy_of_leadsBy {f : Char → Char} {pat s : List Char}
    (hp : pat ≠ []) (h : leadsBy f pat s = true) : occursBy f pat s = true := by
  cases s with
  | nil =>
    exfalso
    cases pat with
    | nil => exact hp rfl
    | cons p pt => rw [leadsBy_nil_false] at h; cases h
  | cons c t => simp [occursBy, h]

lemma occursBy_append_of_right {f : Char → Char} {pat B : List Char}
    (A : List Char) (h : occursBy f pat B = true) :
    occursBy f pat (A ++ B) = true := by
  induction A with
  | nil => simpa using h
  | cons a A ih => simp [occursBy, ih]

lemma occursBy_append_split {f : Char → Char} {pat B : List Char}
    {A : List Char} (h : occursBy f pat (A ++ B) = true) :
    (∃ u A', A = u ++ A' ∧ A' ≠ [] ∧ leadsBy f pat (A' ++ B) = true) ∨
      occursBy f pat B = true := by
  induction A with
  | nil => right; simpa using h
  | cons a A ih =>
    rw [List.cons_append] at h
    simp only [occursBy, Bool.or_eq_true] at h
    rcases h with h1 | h2
    · exact Or.inl ⟨[], a :: A, rfl, by simp, by simpa using h1⟩
    · rcases ih h2 with ⟨u, A', hA, hne, hl⟩ | hB
      · exact Or.inl ⟨a :: u, A', by simp [hA], hne, hl⟩
      · exact Or.inr hB

lemma replaceByF_congr {f : Char → Char} {p : Char} {pt rep : List Char} :
    ∀ (n m : Nat) (s : List Char), s.length ≤ n → s.length ≤ m →
      replaceByF f p pt rep n s = replaceByF f p pt rep m s := by
  intro n
  induction n with
  | zero =>
    intro m s hn _
    have hs0 : s = [] := List.length_eq_zero.mp (Nat.le_zero.mp hn)
    subst hs0
    cases m <;> rfl
  | succ n ih =>
    intro m s hn hm
    cases s with
    | nil => cases m <;> rfl
    | cons c t =>
      cases m with
      | zero => simp at hm
      | succ m =>
        rw [replaceByF, replaceByF]
        simp only [List.length_cons] at hn hm
        by_cases hmm : leadsBy f (p :: pt) (c :: t) = true
        · rw [if_pos hmm, if_pos hmm]
          rw [ih m (t.drop pt.length) (by simp only [List.length_drop]; omega)
            (by simp only [List.length_drop]; omega)]
        · rw [if_neg hmm, if_neg hmm]
          rw [ih m t (by omega) (by omega)]

lemma replaceBy_nil {f : Char → Char} {p : Char} {pt rep : List Char} :
    replaceBy f p pt rep [] = [] := rfl

lemma replaceBy_cons_pos {f : Char → Char} {p c : Char} {pt rep t : List Char}
    (hm : leadsBy f (p :: pt) (c :: t) = true) :
    replaceBy f p pt rep (c :: t) =
      rep ++ replaceBy f p pt rep (t.drop pt.length) := by
  rw [replaceBy, replaceBy]
  rw [show (c :: t).length = t.length + 1 from rfl, replaceByF, if_pos hm]
  rw [replaceByF_congr t.length (t.drop pt.length).length (t.drop pt.length)
    (by simp only [List.length_drop]; omega) (le_refl _)]

lemma replaceBy_cons_neg {f : Char → Char} {p c : Char} {pt rep t : List Char}
    (hm : leadsBy f (p :: pt) (c :: t) = false) :
    replaceBy f p pt rep (c :: t) = c :: replaceBy f p pt rep t := by
  rw [replaceBy, replaceBy]
  rw [show (c :: t).length = t.length + 1 from rfl, replaceByF,
    if_neg (by simp [hm])]

lemma occursBy_nil_false {f : Char → Char} {p : Char} {pt : List Char} :
    occursBy f (p :: pt) [] = false := by
  simp [occursBy, leadsBy_nil_false]

/-- Pull-back of an anchored match: under the non-reintroduction side
conditions, any folded match of a (possibly partial) suffix of the
pattern at the head of the replaced text was already present at the head
of the source text. -/
lemma replaceBy_leads_pull {f : Char → Char} {p : Char} {pt rep : List Char}
    (hlen : pt.length + 1 ≤ rep.length)
    (h3 : ∀ j, 1 ≤ j → j < pt.length + 1 →
      leadsBy f ((p :: pt).drop j) rep = false)
    (h4 : occursBy f (p :: pt) rep = false) :
    ∀ (n : Nat) (s : List Char), s.length ≤ n → ∀ j, j < pt.length + 1 →
      leadsBy f ((p :: pt).drop j) (replaceBy f p pt rep s) = true →
      leadsBy f ((p :: pt).drop j) s = true := by
  intro n
  induction n with
  | zero =>
    intro s hs j hj h
    have hs0 : s = [] := List.length_eq_zero.mp (Nat.le_zero.mp hs)
    subst hs0
    rw [replaceBy_nil] at h
    exact h
  | succ n ih =>
    intro s hs j hj h
    cases s with
    | nil => rw [replaceBy_nil] at h; exact h
    | cons c t =>
      have hjlt : j < (p :: pt).length := by simp; omega
      by_cases hm : leadsBy f (p :: pt) (c :: t) = true
      · exfalso
        rw [replaceBy_cons_pos hm] at h
        have hq_le : ((p :: pt).drop j).length ≤ rep.length := by
          simp only [List.length_drop, List.length_cons]; omega
        rw [leadsBy_append_left hq_le] at h
        rcases Nat.eq_zero_or_pos j with hj0 | hjpos
        · subst hj0
          simp only [List.drop_zero] at h
          have hocc : occursBy f (p :: pt) rep = true :=
            occursBy_of_leadsBy (by simp) h
          rw [h4] at hocc
          cases hocc
        · rw [h3 j hjpos hj] at h
          cases h
      · have hm' : leadsBy f (p :: pt) (c :: t) = false := Bool.eq_false_iff.mpr hm
        rw [replaceBy_cons_neg hm'] at h
        rw [List.drop_eq_getElem_cons hjlt] at h ⊢
        rw [leadsBy_cons] at h ⊢
        rw [Bool.and_eq_true] at h ⊢
        refine ⟨h.1, ?_⟩
        by_cases hj1 : j + 1 < pt.length + 1
        · exact ih t (by simpa using Nat.le_of_succ_le_succ hs) (j + 1) hj1 h.2
        · have hnil : (p :: pt).drop (j + 1) = [] := by
            apply List.drop_eq_nil_iff.mpr
            simp
            omega
          rw [hnil]
          exact leadsBy_nil_pat

/-- Replacement eliminates the pattern: under the side conditions
(pattern no longer than the replacement, no nonempty proper suffix of
the pattern folded-matching a prefix of the replacement, the pattern not
folded-occurring in the replacement, and no nonempty proper suffix of
the replacement folded-matching a prefix of the pattern) the replaced
text has no folded occurrence of the pattern. -/
lemma replaceBy_no_occurs {f : Char → Char} {p : Char} {pt rep : List Char}
    (hlen : pt.length + 1 ≤ rep.length)
    (h3 : ∀ j, 1 ≤ j → j < pt.length + 1 →
      leadsBy f ((p :: pt).drop j) rep = false)
    (h4 : occursBy f (p :: pt) rep = false)
    (h5 : ∀ k, k < rep.length → rep.length - k < pt.length + 1 →
      ¬ (rep.drop k).map f = ((p :: pt).take (rep.length - k)).map f) :
    ∀ (n : Nat) (s : List Char), s.length ≤ n →
      occursBy f (p :: pt) (replaceBy f p pt rep s) = false := by
  intro n
  induction n with
  | zero =>
    intro s hs
    have hs0 : s = [] := List.length_eq_zero.mp (Nat.le_zero.mp hs)
    subst hs0
    rw [replaceBy_nil, occursBy_nil_false]
  | succ n ih =>
    intro s hs
    cases s with
    | nil => rw [replaceBy_nil, occursBy_nil_false]
    | cons c t =>
      by_cases hm : leadsBy f (p :: pt) (c :: t) = true
      · rw [replaceBy_cons_pos hm]
        by_contra hocc
        have hocc' : occursBy f (p :: pt)
            (rep ++ replaceBy f p pt rep (t.drop pt.length)) = true := by
          revert hocc
          cases occursBy f (p :: pt) (rep ++ replaceBy f p pt rep (t.drop pt.length)) <;>
            simp
        rcases occursBy_append_split hocc' with ⟨u, A', hA, hne, hl⟩ | hB
        · by_cases hA'len : pt.length + 1 ≤ A'.length
          · have hA'len' : (p :: pt).length ≤ A'.length := by simpa using hA'len
            rw [leadsBy_append_left hA'len'] at hl
            have hocc2 : occursBy f (p :: pt) rep = true := by
              rw [hA]
              exact occursBy_append_of_right u (occursBy_of_leadsBy (by simp) hl)
            rw [h4] at hocc2
            cases hocc2
          · push_neg at hA'len
            have hl' : ((A' ++ replaceBy f p pt rep (t.drop pt.length)).take
                (pt.length + 1)).map f = ((p :: pt)).map f := by
              have := hl
              rw [leadsBy, decide_eq_true_eq] at this
              simpa using this
            have e1 : (A' ++ replaceBy f p pt rep (t.drop pt.length)).take A'.length
                = A' := by
              rw [List.take_append_of_le_length (le_refl _), List.take_length]
            have htake : A'.map f = ((p :: pt).take A'.length).map f := by
              have h6 := congrArg (List.take A'.length) hl'
              rw [← List.map_take, ← List.map_take, List.take_take,
                Nat.min_eq_left (Nat.le_of_lt hA'len), e1] at h6
              exact h6
            have hk : u.length < rep.length := by
              have hA'0 : A'.length ≠ 0 := by
                intro h0
                exact hne (List.length_eq_zero.mp h0)
              rw [hA, List.length_append]
              omega
            have hdropk : rep.drop u.length = A' := by
              rw [hA, List.drop_left]
            have hrlen : rep.length - u.length = A'.length := by
              rw [hA, List.length_append]; omega
            refine h5 u.length hk ?_ ?_
            · omega
            · rw [hdropk, hrlen]; exact htake
        · have hIH : occursBy f (p :: pt) (replaceBy f p pt rep (t.drop pt.length))
              = false := by
            apply ih
            simp only [List.length_drop]
            simp only [List.length_cons] at hs
            omega
          rw [hIH] at hB
          cases hB
      · have hm' : leadsBy f (p :: pt) (c :: t) = false := Bool.eq_false_iff.mpr hm
        rw [replaceBy_cons_neg hm']
        have h2 : occursBy f (p :: pt) (replaceBy f p pt rep t) = false := by
          apply ih
          simp only [List.length_cons] at hs
          omega
        have h1 : leadsBy f (p :: pt) (c :: replaceBy f p pt rep t) = false := by
          by_contra h1'
          have h1'' : leadsBy f (p :: pt) (c :: replaceBy f p pt rep t) = true := by
            revert h1'
            cases leadsBy f (p :: pt) (c :: replaceBy f p pt rep t) <;> simp
          have hpull := replaceBy_leads_pull hlen h3 h4 ((c :: t).length) (c :: t)
            (le_refl _) 0 (by omega)
            (by rw [List.drop_zero, replaceBy_cons_neg hm']; exact h1'')
          rw [List.drop_zero] at hpull
          rw [hm'] at hpull
          cases hpull
        simp [occursBy, h1, h2]

/-- Replacement inserts the replacement text: when the pattern
folded-occurs in the source, the replaced text contains the replacement
text verbatim. -/
lemma replaceBy_contains {f : Char → Char} {p : Char} {pt rep : List Char} :
    ∀ s, occursBy f (p :: pt) s = true →
      ∃ u v, replaceBy f p pt rep s = u ++ rep ++ v := by
  intro s
  induction s with
  | nil => intro h; rw [occursBy_nil_false] at h; cases h
  | cons c t ih =>
    intro h
    by_cases hm : leadsBy f (p :: pt) (c :: t) = true
    · exact ⟨[], replaceBy f p pt rep (t.drop pt.length), by
        rw [replaceBy_cons_pos hm]; simp⟩
    · have hm' : leadsBy f (p :: pt) (c :: t) = false := Bool.eq_false_iff.mpr hm
      have h2 : occursBy f (p :: pt) t = true := by
        simp only [occursBy, Bool.or_eq_true] at h
        rcases h with h1 | h1
        · rw [hm'] at h1; cases h1
        · exact h1
      rcases ih h2 with ⟨u, v, hr⟩
      exact ⟨c :: u, v, by rw [replaceBy_cons_neg hm', hr]; simp⟩

/-! Lemmas about sparse array writes and the persistence rows. -/

lemma jsArraySet_length {l : List (Option String)} {i : Int} {v : Option String}
    (h : 0 ≤ i) :
    (jsArraySet l i v).length = max l.length (i.toNat + 1) := by
  rw [jsArraySet, if_pos h]
  by_cases hlt : i.toNat < l.length
  · rw [if_pos hlt, List.length_set]
    omega
  · rw [if_neg hlt]
    simp only [List.length_append, List.length_replicate, List.length_cons,
      List.length_nil]
    omega

lemma jsArraySet_getElem?_eq {l : List (Option String)} {i : Int}
    {v : Option String} (h : 0 ≤ i) :
    (jsArraySet l i v)[i.toNat]? = some v := by
  rw [jsArraySet, if_pos h]
  by_cases hlt : i.toNat < l.length
  · rw [if_pos hlt]
    exact List.getElem?_set_self hlt
  · rw [if_neg hlt]
    rw [List.append_assoc, List.getElem?_append_right (by omega)]
    rw [List.getElem?_append_right (by simp)]
    simp

lemma jsArraySet_getElem?_ne {l : List (Option String)} {i : Int}
    {v : Option String} {k : Nat} (h : i < 0 ∨ k ≠ i.toNat) :
    ((jsArraySet l i v)[k]?).getD none = (l[k]?).getD none := by
  rcases h with h | h
  · rw [jsArraySet, if_neg (by omega)]
  · rw [jsArraySet]
    by_cases h0 : 0 ≤ i
    · rw [if_pos h0]
      by_cases hlt : i.toNat < l.length
      · rw [if_pos hlt, List.getElem?_set_ne (by omega)]
      · rw [if_neg hlt]
        by_cases hk : k < l.length
        · rw [List.append_assoc, List.getElem?_append_left hk]
        · rw [List.append_assoc, List.getElem?_append_right (by omega)]
          have hr : (l[k]?).getD none = none := by
            rw [List.getElem?_eq_none (by omega)]
            rfl
          rw [hr]
          by_cases hk2 : k - l.length < i.toNat - l.length
          · rw [List.getElem?_append_left (by simpa using hk2)]
            simp [List.getElem?_replicate, hk2]
          · rw [List.getElem?_append_right (by simpa using hk2)]
            rw [List.getElem?_eq_none (by simp; omega)]
            rfl
    · rw [if_neg h0]

lemma buildRow_length {nc ec cc : Int} (u : User) (hnc : 0 ≤ nc) (hec : 0 ≤ ec)
    (hcc : 0 ≤ cc) :
    (buildRow nc ec cc u).length =
      max (max (nc.toNat + 1) (ec.toNat + 1)) (cc.toNat + 1) := by
  rw [buildRow, jsArraySet_length hcc, jsArraySet_length hec,
    jsArraySet_length hnc]
  simp only [List.length_nil]
  omega

lemma buildRow_getD {nc ec cc : Int} (u : User) (hnc : 0 ≤ nc) (hec : 0 ≤ ec)
    (hcc : 0 ≤ cc) (k : Nat) :
    ((buildRow nc ec cc u)[k]?).getD none =
      if k = cc.toNat then u._certificateID
      else if k = ec.toNat then u._email
      else if k = nc.toNat then u._name
      else none := by
  rw [buildRow]
  by_cases hkc : k = cc.toNat
  · subst hkc
    rw [jsArraySet_getElem?_eq hcc, if_pos rfl]
    rfl
  · rw [jsArraySet_getElem?_ne (Or.inr hkc), if_neg hkc]
    by_cases hke : k = ec.toNat
    · subst hke
      rw [jsArraySet_getElem?_eq hec, if_pos rfl]
      rfl
    · rw [jsArraySet_getElem?_ne (Or.inr hke), if_neg hke]
      by_cases hkn : k = nc.toNat
      · subst hkn
        rw [jsArraySet_getElem?_eq hnc, if_pos rfl]
        rfl
      · rw [jsArraySet_getElem?_ne (Or.inr hkn), if_neg hkn]
        simp

/-! Lemmas about the certificate generation loop. -/

lemma certLoop_getElem? (cfg : AppConfig) (envs : Nat → CertEnv) (del : Bool) :
    ∀ (us : List User) (i0 : Nat),
      (certLoop cfg envs del us i0).1.length = us.length ∧
      (certLoop cfg envs del us i0).2.length = us.length ∧
      ∀ i : Nat,
        ((certLoop cfg envs del us i0).1[i]? = (us[i]?).map fun u =>
          u.setCertificateID
            ((certFor del u).createCertificate cfg (envs (i0 + i))).1.getCertificateID) ∧
        ((certLoop cfg envs del us i0).2[i]? = (us[i]?).map fun u =>
          ((certFor del u).createCertificate cfg (envs (i0 + i))).2) := by
  intro us
  induction us with
  | nil =>
    intro i0
    refine ⟨rfl, rfl, fun i => ?_⟩
    simp [certLoop]
  | cons u rest ih =>
    intro i0
    have hhead : certLoop cfg envs del (u :: rest) i0 =
        (u.setCertificateID
            ((certFor del u).createCertificate cfg (envs i0)).1.getCertificateID ::
            (certLoop cfg envs del rest (i0 + 1)).1,
          ((certFor del u).createCertificate cfg (envs i0)).2 ::
            (certLoop cfg envs del rest (i0 + 1)).2) := by
      rw [certLoop]
    rcases ih (i0 + 1) with ⟨hl1, hl2, hget⟩
    refine ⟨by rw [hhead]; simpa using hl1, by rw [hhead]; simpa using hl2, fun i => ?_⟩
    cases i with
    | zero =>
      rw [hhead]
      simp
    | succ i =>
      rw [hhead]
      rcases hget i with ⟨hg1, hg2⟩
      have harith : i0 + 1 + i = i0 + (i + 1) := by omega
      rw [harith] at hg1 hg2
      simp only [List.getElem?_cons_succ]
      exact ⟨hg1, hg2⟩

/-- Characterization of `getUsersFromSheet` used by the load theorems:
with a resolvable certificate-id header and full-width data rows the
call succeeds and appends the `rowRecipient` image of the data rows. -/
lemma load_characterization (bp : BatchProcessor) (sheet : SheetData)
    (hc : bp._certificatesIDColumnHeader ∈ sheet.headers)
    (hrect : ∀ row ∈ sheet.data, row.length = sheet.headers.length) :
    bp.getUsersFromSheet sheet =
      ({ bp with
          _users := bp._users ++ sheet.data.filterMap
                      (rowRecipient (jsIndexOf sheet.headers bp._namesColumnHeader)
                        (jsIndexOf sheet.headers bp._emailsColumnHeader)
                        (jsIndexOf sheet.headers bp._certificatesIDColumnHeader)) },
        none) := by
  rcases jsIndexOf_of_mem hc with ⟨hcc0, hcclt⟩
  have hlen : ∀ row ∈ sheet.data,
      (jsIndexOf sheet.headers bp._certificatesIDColumnHeader).toNat < row.length := by
    intro row hrow
    rw [hrect row hrow]
    exact hcclt
  rw [BatchProcessor.getUsersFromSheet]
  rw [loadRows_filterMap hcc0 sheet.data hlen bp._users]

lemma map_buildRow_getD {us : List User} {nc ec cc : Int} {i : Nat}
    (h : i < us.length) :
    (us.map (buildRow nc ec cc)).getD i [] =
      buildRow nc ec cc (us.getD i newUser) := by
  rw [List.getD_eq_getElem?_getD, List.getD_eq_getElem?_getD, List.getElem?_map]
  rw [List.getElem?_eq_getElem h]
  rfl

/-! Claim theorems. -/

/-- C1: when the certificate-id header resolves and the data rows have
the full header width, `getUsersFromSheet` terminates without error and
appends, in row order, exactly the recipients described by
`rowRecipient`: one per row whose name and email cells are both
non-empty, built from the trimmed string values of the three resolved
columns, and none for any other row. -/
theorem getUsersFromSheet_loads_valid_rows (bp : BatchProcessor) (sheet : SheetData)
    (hc : bp._certificatesIDColumnHeader ∈ sheet.headers)
    (hrect : ∀ row ∈ sheet.data, row.length = sheet.headers.length) :
    bp.getUsersFromSheet sheet =
      ({ bp with
          _users := bp._users ++ sheet.data.filterMap
                      (rowRecipient (jsIndexOf sheet.headers bp._namesColumnHeader)
                        (jsIndexOf sheet.headers bp._emailsColumnHeader)
                        (jsIndexOf sheet.headers bp._certificatesIDColumnHeader)) },
        none) :=
  load_characterization bp sheet hc hrect

/-- C8: `getUsersFromSheet` accumulates.  Any call only ever appends to
the existing `_users` list, and under resolvable headers two successive
calls yield the original list followed by the recipients read from the
first source and then those read from the second; the list is never
reset. -/
theorem getUsersFromSheet_accumulates (bp : BatchProcessor) (s1 s2 : SheetData)
    (hc1 : bp._certificatesIDColumnHeader ∈ s1.headers)
    (hrect1 : ∀ row ∈ s1.data, row.length = s1.headers.length)
    (hc2 : bp._certificatesIDColumnHeader ∈ s2.headers)
    (hrect2 : ∀ row ∈ s2.data, row.length = s2.headers.length) :
    (∀ sheet : SheetData, ∃ t, ((bp.getUsersFromSheet sheet).1)._users =
      bp._users ++ t) ∧
    ((bp.getUsersFromSheet s1).1.getUsersFromSheet s2).1._users =
      bp._users ++
        s1.data.filterMap
          (rowRecipient (jsIndexOf s1.headers bp._namesColumnHeader)
            (jsIndexOf s1.headers bp._emailsColumnHeader)
            (jsIndexOf s1.headers bp._certificatesIDColumnHeader)) ++
        s2.data.filterMap
          (rowRecipient (jsIndexOf s2.headers bp._namesColumnHeader)
            (jsIndexOf s2.headers bp._emailsColumnHeader)
            (jsIndexOf s2.headers bp._certificatesIDColumnHeader)) := by
  constructor
  · intro sheet
    refine ⟨(loadRows (jsIndexOf sheet.headers bp._namesColumnHeader)
      (jsIndexOf sheet.headers bp._emailsColumnHeader)
      (jsIndexOf sheet.headers bp._certificatesIDColumnHeader) sheet.data []).1, ?_⟩
    rw [BatchProcessor.getUsersFromSheet]
    rw [loadRows_acc]
  · rw [load_characterization bp s1 hc1 hrect1]
    dsimp only
    rw [load_characterization
      ({ bp with
          _users := bp._users ++ s1.data.filterMap
                      (rowRecipient (jsIndexOf s1.headers bp._namesColumnHeader)
                        (jsIndexOf s1.headers bp._emailsColumnHeader)
                        (jsIndexOf s1.headers bp._certificatesIDColumnHeader)) })
      s2 hc2 hrect2]

/-- C4 (amended): in `getUsersFromSheet`, a row with non-empty name and
email cells whose certificate cell is present but empty is loaded with
an empty certificate id; but when the certificate-id header is not found
in the header row, the first such valid row makes the load throw (the
undefined cell's `toString` is read) instead of loading the row with an
empty id. -/
theorem getUsersFromSheet_certificate_column_cases (bp : BatchProcessor)
    (sheet : SheetData) :
    (∀ row, row ∈ sheet.data →
      bp._certificatesIDColumnHeader ∈ sheet.headers →
      jsTruthy (cellAt row (jsIndexOf sheet.headers bp._namesColumnHeader)) = true →
      jsTruthy (cellAt row (jsIndexOf sheet.headers bp._emailsColumnHeader)) = true →
      cellAt row (jsIndexOf sheet.headers bp._certificatesIDColumnHeader) = some "" →
      ∃ u, loadRow (jsIndexOf sheet.headers bp._namesColumnHeader)
          (jsIndexOf sheet.headers bp._emailsColumnHeader)
          (jsIndexOf sheet.headers bp._certificatesIDColumnHeader) row =
            .ok (some u) ∧
        u._certificateID = some "") ∧
    (bp._certificatesIDColumnHeader ∉ sheet.headers →
      (∃ row ∈ sheet.data,
        jsTruthy (cellAt row (jsIndexOf sheet.headers bp._namesColumnHeader)) = true ∧
        jsTruthy (cellAt row (jsIndexOf sheet.headers bp._emailsColumnHeader)) = true) →
      ((bp.getUsersFromSheet sheet).2).isSome = true) := by
  constructor
  · intro row _ _ hn he hcell
    refine ⟨((newUser.setName
        (jsTrim ((cellAt row (jsIndexOf sheet.headers bp._namesColumnHeader)).getD ""))).setEmail
        (jsTrim ((cellAt row (jsIndexOf sheet.headers bp._emailsColumnHeader)).getD ""))).setCertificateID
        (jsTrim ""), ?_, ?_⟩
    · rw [loadRow, if_neg (by simp [hn, he]), hcell]
    · show some (jsTrim "") = some ""
      rfl
  · intro hnotin hex
    have hneg : jsIndexOf sheet.headers bp._certificatesIDColumnHeader = -1 :=
      jsIndexOf_of_not_mem hnotin
    rw [BatchProcessor.getUsersFromSheet]
    simp only
    exact loadRows_error_of_neg (by rw [hneg]; omega) sheet.data hex bp._users

/-- C5 (amended): on an empty recipient list, `createAllCertificates`
and `sendEmails` are no-ops returning the state unchanged and sending
nothing, but `saveUsersToSheet` is not: it throws while reading the
width of the missing first row, before performing any write. -/
theorem empty_roster_operations (bp : BatchProcessor) (cfg : AppConfig)
    (envs : Nat → CertEnv) (params : Option EmailParams) (sheet : SheetData)
    (grid : Grid) (h : bp._users = []) :
    bp.createAllCertificates cfg envs = (bp, []) ∧
    bp.sendEmails params = [] ∧
    ∃ e, bp.saveUsersToSheet sheet grid = .error e := by
  refine ⟨?_, ?_, ?_⟩
  · rw [BatchProcessor.createAllCertificates, h]
    rw [show certLoop cfg envs bp._deletePresentations [] 0 = ([], []) from rfl]
    cases bp with
    | mk us a b c d e f =>
      simp only at h
      subst h
      rfl
  · rw [BatchProcessor.sendEmails, h]
    rfl
  · refine ⟨"TypeError: Cannot read properties of undefined (reading length)", ?_⟩
    rw [BatchProcessor.saveUsersToSheet, h]
    rfl

/-- C5 counterexample: persisting an empty roster does not return
without error as the claim states; it throws the first-row width
`TypeError`. -/
theorem saveUsersToSheet_empty_throws :
    newBatchProcessor.saveUsersToSheet ⟨["Name"], []⟩ (constGrid "x") =
      .error "TypeError: Cannot read properties of undefined (reading length)" := rfl

/-- C4 counterexample: with the certificate-id header absent from the
header row, a row with non-empty name and email is not loaded with an
empty artifact reference; the load throws and the list stays empty. -/
theorem getUsersFromSheet_missing_certificate_column :
    (({ _users := []
        _spreadsheetID := "s"
        _sheetName := "sh"
        _namesColumnHeader := "Name"
        _emailsColumnHeader := "Email"
        _certificatesIDColumnHeader := "Certificate ID"
        _deletePresentations := false } : BatchProcessor).getUsersFromSheet
      ⟨["Name", "Email"], [["Ana", "ana@x.y"]]⟩).2 =
        some "TypeError: Cannot read properties of undefined (reading toString)" ∧
    (({ _users := []
        _spreadsheetID := "s"
        _sheetName := "sh"
        _namesColumnHeader := "Name"
        _emailsColumnHeader := "Email"
        _certificatesIDColumnHeader := "Certificate ID"
        _deletePresentations := false } : BatchProcessor).getUsersFromSheet
      ⟨["Name", "Email"], [["Ana", "ana@x.y"]]⟩).1._users = [] := by
  constructor
  · rfl
  · rfl

/-- C2: `createAllCertificates` processes the loaded recipients strictly
in list order: position `i` is handled by a fresh generator configured
with certificate name `"Certificate: " ++ name`, replacement text the
recipient's name, and the processor's delete flag, run in the `i`-th
environment, and the generator's resulting certificate id is assigned
back onto that recipient. -/
theorem createAllCertificates_configures_each (bp : BatchProcessor)
    (cfg : AppConfig) (envs : Nat → CertEnv) :
    (bp.createAllCertificates cfg envs).2.length = bp._users.length ∧
    (bp.createAllCertificates cfg envs).1._users.length = bp._users.length ∧
    ∀ (i : Nat) (u : User) (nm : String), bp._users[i]? = some u →
      u._name = some nm →
      (bp.createAllCertificates cfg envs).2[i]? =
        some ((((newCertificate.setCertificateName
          ("Certificate: " ++ nm)).setPlaceholderReplacement
          (some nm)).deletePresentation
          bp._deletePresentations).createCertificate cfg (envs i)).2 ∧
      (bp.createAllCertificates cfg envs).1._users[i]? =
        some (u.setCertificateID ((((newCertificate.setCertificateName
          ("Certificate: " ++ nm)).setPlaceholderReplacement
          (some nm)).deletePresentation
          bp._deletePresentations).createCertificate cfg
            (envs i)).1.getCertificateID) := by
  rcases certLoop_getElem? cfg envs bp._deletePresentations bp._users 0 with
    ⟨hl1, hl2, hget⟩
  rw [BatchProcessor.createAllCertificates]
  refine ⟨hl2, hl1, fun i u nm hu hnm => ?_⟩
  rcases hget i with ⟨hg1, hg2⟩
  have hcert : certFor bp._deletePresentations u =
      (((newCertificate.setCertificateName
        ("Certificate: " ++ nm)).setPlaceholderReplacement
        (some nm)).deletePresentation bp._deletePresentations) := by
    rw [certFor, User.getName, hnm]
    rfl
  constructor
  · rw [hg2, hu]
    simp only [Option.map_some', Nat.zero_add, hcert]
  · rw [hg1, hu]
    simp only [Option.map_some', Nat.zero_add, hcert]

/-- C3 counterexample: the replacement text can reintroduce the
placeholder.  With placeholder `"ab"`, replacement `"b"` and template
`"aab"`, the replacement removes the match but the stored artifact
`"ab"` again contains a case-insensitive occurrence of the placeholder,
so the claim's unconditional "no remaining occurrence" is false. -/
theorem createCertificate_can_reintroduce_placeholder :
    occursBy Char.toLower "ab".data
      (((newCertificate.setPlaceholderReplacement (some "b")).createCertificate
        ⟨"base-id", "folder-id", "ab"⟩ ⟨"aab".data, "clone-0", "pdf-0"⟩).2.pdfText)
      = true := by decide

/-- C3 (amended): `createCertificate` issues exactly one
`replaceAllText` request, targeting the clone, with match-case disabled,
and the stored artifact's text is the case-insensitive replace-all of
the placeholder by the replacement in the template text.  Consequently,
when the template contains a case-insensitive occurrence of the
(nonempty) placeholder, the artifact contains the replacement text; and
when moreover the placeholder is no longer than the replacement, no
nonempty proper suffix of the placeholder case-insensitively begins the
replacement, the placeholder does not case-insensitively occur in the
replacement, and no nonempty proper suffix of the replacement
case-insensitively equals a prefix of the placeholder, the artifact has
no case-insensitive occurrence of the placeholder left. -/
theorem createCertificate_replaces_placeholder (c : Certificate)
    (cfg : AppConfig) (env : CertEnv) (rep : String)
    (hrep : c._placeholderReplacement = some rep) :
    ((c.createCertificate cfg env).2.batchUpdates =
      [([{ replaceText := some rep
           containsTextText := cfg.placeholder
           matchCase := false }], env.cloneFileID)]) ∧
    ((c.createCertificate cfg env).2.pdfText =
      replaceAllCI cfg.placeholder.data rep.data env.templateText) ∧
    (cfg.placeholder.data ≠ [] →
      occursBy Char.toLower cfg.placeholder.data env.templateText = true →
      ∃ u v, (c.createCertificate cfg env).2.pdfText = u ++ rep.data ++ v) ∧
    (cfg.placeholder.data ≠ [] →
      cfg.placeholder.data.length ≤ rep.data.length →
      (∀ j, j < cfg.placeholder.data.length → 1 ≤ j →
        leadsBy Char.toLower (cfg.placeholder.data.drop j) rep.data = false) →
      occursBy Char.toLower cfg.placeholder.data rep.data = false →
      (∀ k, k < rep.data.length →
        rep.data.length - k < cfg.placeholder.data.length →
        ¬ (rep.data.drop k).map Char.toLower =
          (cfg.placeholder.data.take (rep.data.length - k)).map Char.toLower) →
      occursBy Char.toLower cfg.placeholder.data
        (c.createCertificate cfg env).2.pdfText = false) := by
  have hpdf : (c.createCertificate cfg env).2.pdfText =
      replaceAllCI cfg.placeholder.data rep.data env.templateText := by
    rw [Certificate.createCertificate, hrep]
    rfl
  refine ⟨by rw [Certificate.createCertificate, hrep], hpdf, ?_, ?_⟩
  · intro hne hocc
    rw [hpdf]
    cases hp : cfg.placeholder.data with
    | nil => exact absurd hp hne
    | cons p pt =>
      rw [replaceAllCI]
      rw [hp] at hocc
      exact replaceBy_contains env.templateText hocc
  · intro hne hlen h3 h4 h5
    rw [hpdf]
    cases hp : cfg.placeholder.data with
    | nil => exact absurd hp hne
    | cons p pt =>
      rw [replaceAllCI]
      rw [hp] at hlen h3 h4 h5
      simp only [List.length_cons] at hlen h3 h5
      exact replaceBy_no_occurs hlen
        (fun j hj1 hj2 => h3 j hj2 hj1) h4
        (fun k hk hk2 => h5 k hk hk2)
        env.templateText.length env.templateText (le_refl _)

/-- C6: serialisation round-trip.  For every user whose certificate id
field holds a string (as every constructed user's does),
`fromJSON (toJSON u)` restores all three fields, and deserialising a
record with name and email but no certificate id yields an empty-string
certificate id rather than an absent value. -/
theorem toJSON_fromJSON_round_trip (u : User) (cid : String)
    (hc : u._certificateID = some cid) :
    ((newUser.fromJSON u.toJSON)._name = u._name ∧
     (newUser.fromJSON u.toJSON)._email = u._email ∧
     (newUser.fromJSON u.toJSON)._certificateID = u._certificateID) ∧
    (∀ n e : String,
      (newUser.fromJSON ⟨some n, some e, none⟩)._certificateID = some "") := by
  constructor
  · refine ⟨rfl, rfl, ?_⟩
    rw [User.fromJSON, User.toJSON]
    dsimp only
    rw [hc]
    rfl
  · intro n e
    rfl

/-- C7 counterexample: with an options object whose subject is provided
but empty — the shape the repository's own usage example passes — the
sent message does not use the provided subject; the `||` defaulting
substitutes the recipient's default subject instead, so the claim's
"options used when provided" branch is false. -/
theorem sendEmail_provided_empty_not_used :
    ((demoUser.setCertificateID "cert-1").sendEmail
        (some demoEmailParams)).map EmailMsg.subject =
      some defaultEmailSubject ∧
    defaultEmailSubject ≠ "" := by
  constructor
  · decide
  · decide

/-- C7 (amended): `sendEmail` on a falsy certificate id sends nothing
and returns without error; on a recipient with a non-empty certificate
id it sends exactly one message whose sole attachment is the referenced
certificate, addressed to the recipient's email, using the caller's
subject, body and sender name when provided with a non-empty value, and
otherwise — when the option is absent or provided empty — the default
subject, the default body with the recipient's name interpolated, and an
empty sender name. -/
theorem sendEmail_skips_or_sends (u : User) (params : Option EmailParams) :
    (jsTruthy u._certificateID = false → u.sendEmail params = none) ∧
    (∀ cid, u._certificateID = some cid → cid ≠ "" →
      ∃ msg, u.sendEmail params = some msg ∧
        msg.attachments = [cid] ∧
        msg.toAddr = u._email ∧
        (∀ p s, params = some p → p.subject = some s → s ≠ "" →
          msg.subject = s) ∧
        ((params.bind fun p => p.subject) = none →
          msg.subject = defaultEmailSubject) ∧
        (∀ p, params = some p → p.subject = some "" →
          msg.subject = defaultEmailSubject) ∧
        (∀ p s, params = some p → p.htmlBody = some s → s ≠ "" →
          msg.htmlBody = s) ∧
        ((params.bind fun p => p.htmlBody) = none → ∀ nm, u._name = some nm →
          msg.htmlBody = defaultEmailHtmlBody nm) ∧
        (∀ p, params = some p → p.htmlBody = some "" → ∀ nm, u._name = some nm →
          msg.htmlBody = defaultEmailHtmlBody nm) ∧
        (∀ p s, params = some p → p.senderName = some s → s ≠ "" →
          msg.senderName = s) ∧
        ((params.bind fun p => p.senderName) = none →
          msg.senderName = "") ∧
        (∀ p, params = some p → p.senderName = some "" →
          msg.senderName = "")) := by
  constructor
  · intro hfalsy
    cases hcid : u._certificateID with
    | none => rw [User.sendEmail, hcid]
    | some s =>
      rw [hcid, jsTruthy] at hfalsy
      simp only [decide_eq_false_iff_not, not_not] at hfalsy
      rw [User.sendEmail, hcid]
      dsimp only
      rw [if_pos hfalsy]
  · intro cid hcid hne
    refine ⟨{ senderName := jsOr (params.bind fun p => p.senderName) ""
              toAddr := u._email
              subject := jsOr (params.bind fun p => p.subject) defaultEmailSubject
              htmlBody := jsOr (params.bind fun p => p.htmlBody)
                (defaultEmailHtmlBody (jsTemplateStr u._name))
              attachments := [cid] }, ?_, rfl, rfl, ?_, ?_, ?_, ?_, ?_, ?_, ?_, ?_, ?_⟩
    · rw [User.sendEmail, hcid]
      dsimp only
      rw [if_neg hne]
    · intro p s hp hs hsne
      simp [hp, hs, jsOr, hsne]
    · intro hnone
      simp [hnone, jsOr]
    · intro p hp hs
      simp [hp, hs, jsOr]
    · intro p s hp hs hsne
      simp [hp, hs, jsOr, hsne]
    · intro hnone nm hnm
      simp [hnone, jsOr, hnm, jsTemplateStr]
    · intro p hp hs nm hnm
      simp [hp, hs, jsOr, hnm, jsTemplateStr]
    · intro p s hp hs hsne
      simp [hp, hs, jsOr, hsne]
    · intro hnone
      simp [hnone, jsOr]
    · intro p hp hs
      simp [hp, hs, jsOr]

/-- C10: `fromJSON` defaults asymmetrically.  A record missing the name
or email key leaves that field undefined (not the empty string), while a
missing certificate id key becomes the empty string; and for an
arbitrary record only the certificate id field is guaranteed to come out
as a string. -/
theorem fromJSON_field_defaulting (r : JSONRecord) (hn : r.name = none)
    (he : r.email = none) (hc : r.certificateID = none) :
    ((newUser.fromJSON r)._name = none ∧ (newUser.fromJSON r)._name ≠ some "") ∧
    (newUser.fromJSON r)._email = none ∧
    (newUser.fromJSON r)._certificateID = some "" ∧
    (∀ r' : JSONRecord, ∃ s : String,
      (newUser.fromJSON r')._certificateID = some s) := by
  refine ⟨⟨?_, ?_⟩, ?_, ?_, ?_⟩
  · rw [User.fromJSON]
    dsimp only
    exact hn
  · rw [User.fromJSON]
    dsimp only
    rw [hn]
    simp
  · rw [User.fromJSON]
    dsimp only
    exact he
  · rw [User.fromJSON]
    dsimp only
    rw [hc]
    rfl
  · intro r'
    exact ⟨r'.certificateID.getD "", rfl⟩

/-- C9: with a non-empty recipient list and all three headers resolved,
`saveUsersToSheet` succeeds; every built row carries values only at the
three resolved column indices and has width one more than the largest
resolved index; inside the written block (rows 2 through 1 + N, columns
1 through that width) every cell — including the cells at unresolved
offsets, which are written empty — is determined by the built rows alone,
overwriting whatever the grid previously held, while every cell outside
the block keeps its previous value. -/
theorem saveUsersToSheet_row_shape (bp : BatchProcessor) (sheet : SheetData)
    (grid : Grid) (nc ec cc : Int)
    (hnc : jsIndexOf sheet.headers bp._namesColumnHeader = nc)
    (hec : jsIndexOf sheet.headers bp._emailsColumnHeader = ec)
    (hcc : jsIndexOf sheet.headers bp._certificatesIDColumnHeader = cc)
    (hnc0 : 0 ≤ nc) (hec0 : 0 ≤ ec) (hcc0 : 0 ≤ cc)
    (hne : bp._users ≠ []) :
    ∃ g', bp.saveUsersToSheet sheet grid = .ok g' ∧
      (∀ u ∈ bp._users,
        (buildRow nc ec cc u).length =
          max (max (nc.toNat + 1) (ec.toNat + 1)) (cc.toNat + 1) ∧
        (∀ k, k < max (max (nc.toNat + 1) (ec.toNat + 1)) (cc.toNat + 1) →
          k ≠ nc.toNat → k ≠ ec.toNat → k ≠ cc.toNat →
          ((buildRow nc ec cc u)[k]?).getD none = none)) ∧
      (∀ r cI : Nat, 2 ≤ r → r < 2 + bp._users.length → 1 ≤ cI →
        cI < 1 + max (max (nc.toNat + 1) (ec.toNat + 1)) (cc.toNat + 1) →
        g' r cI =
          (((buildRow nc ec cc (bp._users.getD (r - 2) newUser))[cI - 1]?).getD
            none).getD "") ∧
      (∀ r cI : Nat,
        (r < 2 ∨ 2 + bp._users.length ≤ r ∨ cI < 1 ∨
          1 + max (max (nc.toNat + 1) (ec.toNat + 1)) (cc.toNat + 1) ≤ cI) →
        g' r cI = grid r cI) := by
  subst hnc hec hcc
  obtain ⟨u0, rest, hus⟩ : ∃ u0 rest, bp._users = u0 :: rest := by
    cases h : bp._users with
    | nil => exact absurd h hne
    | cons a b => exact ⟨a, b, rfl⟩
  have hsave : bp.saveUsersToSheet sheet grid =
      .ok (writeRange grid 2 1 (bp._users.map
        (buildRow (jsIndexOf sheet.headers bp._namesColumnHeader)
          (jsIndexOf sheet.headers bp._emailsColumnHeader)
          (jsIndexOf sheet.headers bp._certificatesIDColumnHeader)))) := by
    rw [BatchProcessor.saveUsersToSheet]
    rw [hus]
    rfl
  have hvlen : (bp._users.map
      (buildRow (jsIndexOf sheet.headers bp._namesColumnHeader)
        (jsIndexOf sheet.headers bp._emailsColumnHeader)
        (jsIndexOf sheet.headers bp._certificatesIDColumnHeader))).length =
      bp._users.length := List.length_map _ _
  have hhead : ((bp._users.map
      (buildRow (jsIndexOf sheet.headers bp._namesColumnHeader)
        (jsIndexOf sheet.headers bp._emailsColumnHeader)
        (jsIndexOf sheet.headers bp._certificatesIDColumnHeader))).headD []).length =
      max (max ((jsIndexOf sheet.headers bp._namesColumnHeader).toNat + 1)
        ((jsIndexOf sheet.headers bp._emailsColumnHeader).toNat + 1))
        ((jsIndexOf sheet.headers bp._certificatesIDColumnHeader).toNat + 1) := by
    rw [hus, List.map_cons, List.headD_cons]
    exact buildRow_length u0 hnc0 hec0 hcc0
  refine ⟨_, hsave, ?_, ?_, ?_⟩
  · intro u _
    refine ⟨buildRow_length u hnc0 hec0 hcc0, ?_⟩
    intro k _ k1 k2 k3
    rw [show ((buildRow (jsIndexOf sheet.headers bp._namesColumnHeader)
        (jsIndexOf sheet.headers bp._emailsColumnHeader)
        (jsIndexOf sheet.headers bp._certificatesIDColumnHeader) u)[k]?).getD none =
        if k = (jsIndexOf sheet.headers bp._certificatesIDColumnHeader).toNat then
          u._certificateID
        else if k = (jsIndexOf sheet.headers bp._emailsColumnHeader).toNat then
          u._email
        else if k = (jsIndexOf sheet.headers bp._namesColumnHeader).toNat then
          u._name
        else none from buildRow_getD u hnc0 hec0 hcc0 k]
    rw [if_neg k3, if_neg k2, if_neg k1]
  · intro r cI h2 h2' h1 h1'
    rw [writeRange]
    rw [if_pos ⟨h2, by rw [hvlen]; exact h2', h1, by rw [hhead]; exact h1'⟩]
    rw [map_buildRow_getD (by omega)]
    rw [List.getD_eq_getElem?_getD]
  · intro r cI hout
    rw [writeRange, if_neg ?_]
    rw [hvlen, hhead]
    rintro ⟨c1, c2, c3, c4⟩
    rcases hout with h | h | h | h <;> omega

/-! Witnesses: concrete instantiations discharging each theorem's
hypotheses. -/

/-- Witness for C1 on the demo batch and sheet. -/
theorem getUsersFromSheet_loads_valid_rows_witness :
    (demoBatch._certificatesIDColumnHeader ∈ demoSheet.headers ∧
     ∀ row ∈ demoSheet.data, row.length = demoSheet.headers.length) ∧
    demoBatch.getUsersFromSheet demoSheet =
      ({ demoBatch with
          _users := demoBatch._users ++ demoSheet.data.filterMap
                      (rowRecipient
                        (jsIndexOf demoSheet.headers demoBatch._namesColumnHeader)
                        (jsIndexOf demoSheet.headers demoBatch._emailsColumnHeader)
                        (jsIndexOf demoSheet.headers
                          demoBatch._certificatesIDColumnHeader)) },
        none) :=
  ⟨⟨by decide, by decide⟩,
   getUsersFromSheet_loads_valid_rows demoBatch demoSheet (by decide) (by decide)⟩

/-- Witness for C8 on two successive loads of the demo sheet. -/
theorem getUsersFromSheet_accumulates_witness :
    (demoBatch._certificatesIDColumnHeader ∈ demoSheet.headers ∧
     ∀ row ∈ demoSheet.data, row.length = demoSheet.headers.length) ∧
    ((∀ sheet : SheetData, ∃ t,
        ((demoBatch.getUsersFromSheet sheet).1)._users = demoBatch._users ++ t) ∧
     ((demoBatch.getUsersFromSheet demoSheet).1.getUsersFromSheet demoSheet).1._users =
       demoBatch._users ++
         demoSheet.data.filterMap
           (rowRecipient (jsIndexOf demoSheet.headers demoBatch._namesColumnHeader)
             (jsIndexOf demoSheet.headers demoBatch._emailsColumnHeader)
             (jsIndexOf demoSheet.headers demoBatch._certificatesIDColumnHeader)) ++
         demoSheet.data.filterMap
           (rowRecipient (jsIndexOf demoSheet.headers demoBatch._namesColumnHeader)
             (jsIndexOf demoSheet.headers demoBatch._emailsColumnHeader)
             (jsIndexOf demoSheet.headers demoBatch._certificatesIDColumnHeader))) :=
  ⟨⟨by decide, by decide⟩,
   getUsersFromSheet_accumulates demoBatch demoSheet demoSheet (by decide) (by decide)
     (by decide) (by decide)⟩

/-- Witness for C4: the empty-certificate-cell row of the demo sheet is
loaded with an empty id, and a sheet without the certificate-id header
makes the load fail on its valid row. -/
theorem getUsersFromSheet_certificate_column_cases_witness :
    ((["Bob", " bob@example.com ", ""] ∈ demoSheet.data ∧
      demoBatch._certificatesIDColumnHeader ∈ demoSheet.headers ∧
      jsTruthy (cellAt ["Bob", " bob@example.com ", ""]
        (jsIndexOf demoSheet.headers demoBatch._namesColumnHeader)) = true ∧
      jsTruthy (cellAt ["Bob", " bob@example.com ", ""]
        (jsIndexOf demoSheet.headers demoBatch._emailsColumnHeader)) = true ∧
      cellAt ["Bob", " bob@example.com ", ""]
        (jsIndexOf demoSheet.headers demoBatch._certificatesIDColumnHeader) =
        some "") ∧
     (∃ u, loadRow (jsIndexOf demoSheet.headers demoBatch._namesColumnHeader)
        (jsIndexOf demoSheet.headers demoBatch._emailsColumnHeader)
        (jsIndexOf demoSheet.headers demoBatch._certificatesIDColumnHeader)
        ["Bob", " bob@example.com ", ""] = .ok (some u) ∧
        u._certificateID = some "")) ∧
    ((demoBatch._certificatesIDColumnHeader ∉
        (⟨["Name", "Email"], [["Ana", "ana@x.y"]]⟩ : SheetData).headers ∧
      (∃ row ∈ (⟨["Name", "Email"], [["Ana", "ana@x.y"]]⟩ : SheetData).data,
        jsTruthy (cellAt row
          (jsIndexOf (⟨["Name", "Email"], [["Ana", "ana@x.y"]]⟩ : SheetData).headers
            demoBatch._namesColumnHeader)) = true ∧
        jsTruthy (cellAt row
          (jsIndexOf (⟨["Name", "Email"], [["Ana", "ana@x.y"]]⟩ : SheetData).headers
            demoBatch._emailsColumnHeader)) = true)) ∧
     ((demoBatch.getUsersFromSheet
        ⟨["Name", "Email"], [["Ana", "ana@x.y"]]⟩).2).isSome = true) :=
  ⟨⟨⟨by decide, by decide, by decide, by decide, by decide⟩,
    (getUsersFromSheet_certificate_column_cases demoBatch demoSheet).1
      ["Bob", " bob@example.com ", ""] (by decide) (by decide) (by decide)
      (by decide) (by decide)⟩,
   ⟨⟨by decide, by decide⟩,
    (getUsersFromSheet_certificate_column_cases demoBatch
      ⟨["Name", "Email"], [["Ana", "ana@x.y"]]⟩).2 (by decide) (by decide)⟩⟩

/-- Witness for C5 on the fresh batch processor. -/
theorem empty_roster_operations_witness :
    newBatchProcessor._users = [] ∧
    (newBatchProcessor.createAllCertificates demoCfg demoEnvs =
        (newBatchProcessor, []) ∧
      newBatchProcessor.sendEmails none = [] ∧
      ∃ e, newBatchProcessor.saveUsersToSheet demoSheet (constGrid "old") =
        .error e) :=
  ⟨rfl, empty_roster_operations newBatchProcessor demoCfg demoEnvs none demoSheet
    (constGrid "old") rfl⟩

/-- Witness for C2 at position 0 of the demo batch. -/
theorem createAllCertificates_configures_each_witness :
    (demoBatch._users[0]? = some demoUser ∧ demoUser._name = some "Ana") ∧
    ((demoBatch.createAllCertificates demoCfg demoEnvs).2[0]? =
      some ((((newCertificate.setCertificateName
        ("Certificate: " ++ "Ana")).setPlaceholderReplacement
        (some "Ana")).deletePresentation
        demoBatch._deletePresentations).createCertificate demoCfg (demoEnvs 0)).2 ∧
     (demoBatch.createAllCertificates demoCfg demoEnvs).1._users[0]? =
      some (demoUser.setCertificateID ((((newCertificate.setCertificateName
        ("Certificate: " ++ "Ana")).setPlaceholderReplacement
        (some "Ana")).deletePresentation
        demoBatch._deletePresentations).createCertificate demoCfg
          (demoEnvs 0)).1.getCertificateID)) :=
  ⟨⟨by decide, rfl⟩,
   (createAllCertificates_configures_each demoBatch demoCfg demoEnvs).2.2 0 demoUser
     "Ana" (by decide) rfl⟩

/-- Witness for C3 with placeholder, replacement and template from the
specification's scenario. -/
theorem createCertificate_replaces_placeholder_witness :
    ((newCertificate.setPlaceholderReplacement
        (some "Ana Silva"))._placeholderReplacement = some "Ana Silva" ∧
      demoCfg.placeholder.data ≠ [] ∧
      occursBy Char.toLower demoCfg.placeholder.data (demoEnvs 0).templateText =
        true) ∧
    (∃ u v, ((newCertificate.setPlaceholderReplacement
        (some "Ana Silva")).createCertificate demoCfg (demoEnvs 0)).2.pdfText =
      u ++ "Ana Silva".data ++ v) ∧
    occursBy Char.toLower demoCfg.placeholder.data
      ((newCertificate.setPlaceholderReplacement
        (some "Ana Silva")).createCertificate demoCfg (demoEnvs 0)).2.pdfText =
      false :=
  ⟨⟨rfl, by decide, by decide⟩,
   (createCertificate_replaces_placeholder
      (newCertificate.setPlaceholderReplacement (some "Ana Silva")) demoCfg
      (demoEnvs 0) "Ana Silva" rfl).2.2.1 (by decide) (by decide),
   (createCertificate_replaces_placeholder
      (newCertificate.setPlaceholderReplacement (some "Ana Silva")) demoCfg
      (demoEnvs 0) "Ana Silva" rfl).2.2.2 (by decide) (by decide) (by decide)
      (by decide) (by decide)⟩

/-- Witness for C6 on the demo user. -/
theorem toJSON_fromJSON_round_trip_witness :
    demoUser._certificateID = some "" ∧
    (((newUser.fromJSON demoUser.toJSON)._name = demoUser._name ∧
      (newUser.fromJSON demoUser.toJSON)._email = demoUser._email ∧
      (newUser.fromJSON demoUser.toJSON)._certificateID =
        demoUser._certificateID) ∧
     (∀ n e : String,
       (newUser.fromJSON ⟨some n, some e, none⟩)._certificateID = some "")) :=
  ⟨rfl, toJSON_fromJSON_round_trip demoUser "" rfl⟩

/-- Witness for C7: a user without a certificate sends nothing; a user
with one sends exactly one message with it attached, here with the
usage example's provided-but-empty options object. -/
theorem sendEmail_skips_or_sends_witness :
    (jsTruthy newUser._certificateID = false ∧
      (demoUser.setCertificateID "cert-1")._certificateID = some "cert-1" ∧
      ("cert-1" : String) ≠ "") ∧
    newUser.sendEmail none = none ∧
    (∃ msg, (demoUser.setCertificateID "cert-1").sendEmail
        (some demoEmailParams) = some msg ∧
      msg.attachments = ["cert-1"] ∧
      msg.toAddr = (demoUser.setCertificateID "cert-1")._email ∧
      (∀ p s, (some demoEmailParams : Option EmailParams) = some p →
        p.subject = some s → s ≠ "" → msg.subject = s) ∧
      (((some demoEmailParams : Option EmailParams).bind fun p => p.subject) =
          none → msg.subject = defaultEmailSubject) ∧
      (∀ p, (some demoEmailParams : Option EmailParams) = some p →
        p.subject = some "" → msg.subject = defaultEmailSubject) ∧
      (∀ p s, (some demoEmailParams : Option EmailParams) = some p →
        p.htmlBody = some s → s ≠ "" → msg.htmlBody = s) ∧
      (((some demoEmailParams : Option EmailParams).bind fun p => p.htmlBody) =
          none → ∀ nm, (demoUser.setCertificateID "cert-1")._name = some nm →
          msg.htmlBody = defaultEmailHtmlBody nm) ∧
      (∀ p, (some demoEmailParams : Option EmailParams) = some p →
        p.htmlBody = some "" → ∀ nm,
          (demoUser.setCertificateID "cert-1")._name = some nm →
          msg.htmlBody = defaultEmailHtmlBody nm) ∧
      (∀ p s, (some demoEmailParams : Option EmailParams) = some p →
        p.senderName = some s → s ≠ "" → msg.senderName = s) ∧
      (((some demoEmailParams : Option EmailParams).bind fun p => p.senderName) =
          none → msg.senderName = "") ∧
      (∀ p, (some demoEmailParams : Option EmailParams) = some p →
        p.senderName = some "" → msg.senderName = "")) :=
  ⟨⟨by decide, rfl, by decide⟩,
   (sendEmail_skips_or_sends newUser none).1 (by decide),
   (sendEmail_skips_or_sends (demoUser.setCertificateID "cert-1")
       (some demoEmailParams)).2 "cert-1" rfl (by decide)⟩

/-- Witness for C9 on the demo batch, demo sheet and a constant grid. -/
theorem saveUsersToSheet_row_shape_witness :
    (jsIndexOf demoSheet.headers demoBatch._namesColumnHeader = 0 ∧
      jsIndexOf demoSheet.headers demoBatch._emailsColumnHeader = 1 ∧
      jsIndexOf demoSheet.headers demoBatch._certificatesIDColumnHeader = 2 ∧
      (0 : Int) ≤ 0 ∧ (0 : Int) ≤ 1 ∧ (0 : Int) ≤ 2 ∧ demoBatch._users ≠ []) ∧
    (∃ g', demoBatch.saveUsersToSheet demoSheet (constGrid "old") = .ok g' ∧
      (∀ u ∈ demoBatch._users,
        (buildRow 0 1 2 u).length =
          max (max ((0 : Int).toNat + 1) ((1 : Int).toNat + 1))
            ((2 : Int).toNat + 1) ∧
        (∀ k, k < max (max ((0 : Int).toNat + 1) ((1 : Int).toNat + 1))
            ((2 : Int).toNat + 1) →
          k ≠ (0 : Int).toNat → k ≠ (1 : Int).toNat → k ≠ (2 : Int).toNat →
          ((buildRow 0 1 2 u)[k]?).getD none = none)) ∧
      (∀ r cI : Nat, 2 ≤ r → r < 2 + demoBatch._users.length → 1 ≤ cI →
        cI < 1 + max (max ((0 : Int).toNat + 1) ((1 : Int).toNat + 1))
          ((2 : Int).toNat + 1) →
        g' r cI =
          (((buildRow 0 1 2 (demoBatch._users.getD (r - 2) newUser))[cI - 1]?).getD
            none).getD "") ∧
      (∀ r cI : Nat,
        (r < 2 ∨ 2 + demoBatch._users.length ≤ r ∨ cI < 1 ∨
          1 + max (max ((0 : Int).toNat + 1) ((1 : Int).toNat + 1))
            ((2 : Int).toNat + 1) ≤ cI) →
        g' r cI = constGrid "old" r cI)) :=
  ⟨⟨by decide, by decide, by decide, by decide, by decide, by decide, by decide⟩,
   saveUsersToSheet_row_shape demoBatch demoSheet (constGrid "old") 0 1 2
     (by decide) (by decide) (by decide) (by decide) (by decide) (by decide)
     (by decide)⟩

/-- Witness for C10 on the empty record. -/
theorem fromJSON_field_defaulting_witness :
    ((⟨none, none, none⟩ : JSONRecord).name = none ∧
      (⟨none, none, none⟩ : JSONRecord).email = none ∧
      (⟨none, none, none⟩ : JSONRecord).certificateID = none) ∧
    (((newUser.fromJSON ⟨none, none, none⟩)._name = none ∧
        (newUser.fromJSON ⟨none, none, none⟩)._name ≠ some "") ∧
      (newUser.fromJSON ⟨none, none, none⟩)._email = none ∧
      (newUser.fromJSON ⟨none, none, none⟩)._certificateID = some "" ∧
      (∀ r' : JSONRecord, ∃ s : String,
        (newUser.fromJSON r')._certificateID = some s)) :=
  ⟨⟨rfl, rfl, rfl⟩, fromJSON_field_defaulting ⟨none, none, none⟩ rfl rfl rfl⟩

end CertificateApp
